import Mathlib

/-!
# Verification of the Cyber_Landa reward/achievement/economy core

A shallow embedding of the core components of the Cyber_Landa repository
(`src/core`): the user ledger (`User.cpp`), the task reward computation
(`TaskManager.cpp`), the achievement condition engine (`AchievementManager.cpp`),
the inventory effect cache (`InventoryManager.cpp`), the shop purchase and
lucky-bag resolution (`ShopManager.cpp`), and the reentrant transaction
discipline of the persistence collaborator (`DatabaseManager.cpp`).

C++ `int` values are embedded as `Int`; C++ `double` arithmetic is embedded as
exact rational arithmetic over `ℚ` (the reward factors and prices are short
decimal expressions whose double evaluation agrees with the exact value on the
relevant integer ranges).  Functions that throw are embedded as `Except`.
-/

namespace CyberLanda

/-- C++ `std::clamp(v, lo, hi)`: `v < lo ? lo : (hi < v ? hi : v)`. -/
def cppClamp (v lo hi : Int) : Int :=
  if v < lo then lo else if hi < v then hi else v

/-- C++ `std::round` on a nonnegative-or-negative rational: half away from zero. -/
def cppRound (q : ℚ) : Int :=
  if q < 0 then -⌊-q + 1/2⌋ else ⌊q + 1/2⌋

/-- C++ `static_cast<int>` of a floating value: truncation toward zero. -/
def cppTrunc (q : ℚ) : Int :=
  if q < 0 then -⌊-q⌋ else ⌊q⌋

/-! ## Ledger (`User.cpp`) -/

/-- The six educational attributes of `User::AttributeSet`. -/
structure AttributeSet where
  execution : Int
  perseverance : Int
  decision : Int
  knowledge : Int
  social : Int
  pride : Int
  deriving DecidableEq

/-- `User::ProgressStats`. -/
structure ProgressStats where
  achievementsUnlocked : Int
  totalTasksCompleted : Int
  academicTasksCompleted : Int
  socialTasksCompleted : Int
  personalTasksCompleted : Int
  attributePointsSpent : Int
  deriving DecidableEq

/-- `User::TaskCategory`. -/
inductive TaskCategory
  | Academic
  | Social
  | Personal
  deriving DecidableEq

/-- The per-session ledger state of `User`. -/
structure User where
  level : Int
  growthPoints : Int
  coins : Int
  attributes : AttributeSet
  progress : ProgressStats
  deriving DecidableEq

/-- `User::clampAttributeValue`: `std::clamp(value, kAttributeMin, kAttributeMax)`
with `kAttributeMin = 0`, `kAttributeMax = 999`. -/
def clampAttributeValue (value : Int) : Int :=
  cppClamp value 0 999

/-- `AttributeSet::add` (member-wise addition, used by `applyAttributeBonus`). -/
def AttributeSet.add (a b : AttributeSet) : AttributeSet where
  execution := a.execution + b.execution
  perseverance := a.perseverance + b.perseverance
  decision := a.decision + b.decision
  knowledge := a.knowledge + b.knowledge
  social := a.social + b.social
  pride := a.pride + b.pride

/-- `User::clampAttributes`: clamp every field into `[0, 999]`. -/
def clampAttributes (a : AttributeSet) : AttributeSet where
  execution := clampAttributeValue a.execution
  perseverance := clampAttributeValue a.perseverance
  decision := clampAttributeValue a.decision
  knowledge := clampAttributeValue a.knowledge
  social := clampAttributeValue a.social
  pride := clampAttributeValue a.pride

/-- `User::computeLevelFromGrowth`: the level curve
`1 + (int)sqrt(growthPoints / 100.0)`, guarded by `growthPoints <= 0 -> 1`
and floored at 1.  On the `int` range the double computation of
`(int)sqrt(g / 100.0)` agrees with the exact `Nat.sqrt (g / 100)` (the distance
of `sqrt(g/100)` from the nearest integer it is not equal to is at least
`1/(200*sqrt(g/100))`, far above the double rounding error). -/
def computeLevelFromGrowth (growthPoints : Int) : Int :=
  if growthPoints ≤ 0 then 1
  else max 1 (1 + (Nat.sqrt (growthPoints.toNat / 100) : Int))

/-- `User::recalculateLevel`. -/
def recalculateLevel (u : User) : User :=
  { u with level := computeLevelFromGrowth u.growthPoints }

/-- `User::addGrowthPoints`: non-positive deltas are ignored (the source
returns without touching any state); positive deltas accumulate and the level
is recomputed. -/
def addGrowthPoints (u : User) (delta : Int) : User :=
  if delta ≤ 0 then u
  else recalculateLevel { u with growthPoints := u.growthPoints + delta }

/-- `User::addCoins`: non-positive amounts are ignored. -/
def addCoins (u : User) (amount : Int) : User :=
  if amount ≤ 0 then u
  else { u with coins := u.coins + amount }

/-- `User::spendCoins`: non-positive amounts are ignored; spending more than
the balance throws `"Insufficient coins to spend"`. -/
def spendCoins (u : User) (amount : Int) : Except String User :=
  if amount ≤ 0 then .ok u
  else if amount > u.coins then .error "Insufficient coins to spend"
  else .ok { u with coins := u.coins - amount }

/-- `User::applyAttributeBonus`: additive, then clamp every field. -/
def applyAttributeBonus (u : User) (bonus : AttributeSet) : User :=
  { u with attributes := clampAttributes (u.attributes.add bonus) }

/-- `User::recordTaskCompletion`. -/
def recordTaskCompletion (u : User) (category : TaskCategory) : User :=
  let p := u.progress
  let p := { p with totalTasksCompleted := p.totalTasksCompleted + 1 }
  let p :=
    match category with
    | .Academic => { p with academicTasksCompleted := p.academicTasksCompleted + 1 }
    | .Social => { p with socialTasksCompleted := p.socialTasksCompleted + 1 }
    | .Personal => { p with personalTasksCompleted := p.personalTasksCompleted + 1 }
  { u with progress := p }

/-- `User::recordAchievementUnlock`. -/
def recordAchievementUnlock (u : User) : User :=
  { u with progress :=
      { u.progress with achievementsUnlocked := u.progress.achievementsUnlocked + 1 } }

/-- A concrete ledger used to instantiate universally quantified theorems. -/
def sampleUser : User where
  level := 1
  growthPoints := 0
  coins := 100
  attributes := ⟨0, 0, 0, 0, 0, 0⟩
  progress := ⟨0, 0, 0, 0, 0, 0⟩

/-! ## Theorems about the ledger -/

/-- The integer square root of a truncated quotient is the floor of the real
square root of the exact quotient. -/
lemma floor_real_sqrt_div_hundred (n : ℕ) :
    ⌊Real.sqrt ((n : ℝ) / 100)⌋ = (Nat.sqrt (n / 100) : ℤ) := by
  have hk : (0 : ℤ) ≤ (Nat.sqrt (n / 100) : ℤ) := Int.ofNat_nonneg _
  rw [Int.floor_eq_iff]
  constructor
  · calc ((Nat.sqrt (n / 100) : ℤ) : ℝ)
        = ((Nat.sqrt (n / 100) : ℕ) : ℝ) := by push_cast; ring
      _ ≤ Real.sqrt ((n / 100 : ℕ) : ℝ) := Real.nat_sqrt_le_real_sqrt
      _ ≤ Real.sqrt ((n : ℝ) / 100) := by
          apply Real.sqrt_le_sqrt
          exact_mod_cast Nat.cast_div_le
  · have hlt : n / 100 < (Nat.sqrt (n / 100) + 1) ^ 2 := Nat.lt_succ_sqrt' (n / 100)
    have hn : n < (Nat.sqrt (n / 100) + 1) ^ 2 * 100 :=
      (Nat.div_lt_iff_lt_mul (by norm_num)).1 hlt
    have hr : (n : ℝ) < ((Nat.sqrt (n / 100) + 1) ^ 2 * 100 : ℕ) := by
      exact_mod_cast hn
    have hpos : (0 : ℝ) < ((Nat.sqrt (n / 100) : ℝ) + 1) := by positivity
    have : Real.sqrt ((n : ℝ) / 100) < (Nat.sqrt (n / 100) : ℝ) + 1 := by
      rw [Real.sqrt_lt' hpos]
      rw [div_lt_iff₀ (by norm_num : (0 : ℝ) < 100)]
      push_cast at hr ⊢
      nlinarith [hr]
    push_cast
    linarith [this]

/-- C3: for every growth value `g ≥ 0` the ledger level is
`1 + floor (sqrt (g / 100))` (real square root) and is at least 1; the level is
monotone in the growth points, with `level 0 = 1`, `level 100 = 2`,
`level 400 = 3`. -/
theorem C3_level_curve :
    (∀ g : Int, 0 ≤ g →
      computeLevelFromGrowth g = 1 + ⌊Real.sqrt ((g : ℝ) / 100)⌋) ∧
    (∀ g : Int, 1 ≤ computeLevelFromGrowth g) ∧
    (∀ g h : Int, g ≤ h → computeLevelFromGrowth g ≤ computeLevelFromGrowth h) ∧
    computeLevelFromGrowth 0 = 1 ∧
    computeLevelFromGrowth 100 = 2 ∧
    computeLevelFromGrowth 400 = 3 := by
  have hbase : ∀ g : Int, 0 ≤ g →
      computeLevelFromGrowth g = 1 + (Nat.sqrt (g.toNat / 100) : ℤ) := by
    intro g hg
    unfold computeLevelFromGrowth
    rcases lt_or_eq_of_le hg with hpos | hzero
    · rw [if_neg (by omega)]
      have h1 : (1 : ℤ) ≤ 1 + (Nat.sqrt (g.toNat / 100) : ℤ) := by
        have := Int.ofNat_nonneg (Nat.sqrt (g.toNat / 100))
        omega
      omega
    · rw [if_pos (by omega)]
      have : g.toNat = 0 := by omega
      simp [this]
  refine ⟨?_, ?_, ?_, ?_, ?_, ?_⟩
  · intro g hg
    rw [hbase g hg]
    have hcast : ((g : ℝ)) = ((g.toNat : ℕ) : ℝ) := by
      exact_mod_cast (Int.toNat_of_nonneg hg).symm
    rw [hcast, floor_real_sqrt_div_hundred]
  · intro g
    unfold computeLevelFromGrowth
    by_cases h : g ≤ 0
    · simp [h]
    · rw [if_neg h]
      exact le_max_left 1 _
  · intro g h hgh
    by_cases hg : g ≤ 0
    · have h1 : computeLevelFromGrowth g = 1 := by
        unfold computeLevelFromGrowth; rw [if_pos hg]
      rw [h1]
      by_cases hh : h ≤ 0
      · unfold computeLevelFromGrowth; rw [if_pos hh]
      · unfold computeLevelFromGrowth
        rw [if_neg hh]
        exact le_max_left 1 _
    · have hh : ¬ h ≤ 0 := by omega
      unfold computeLevelFromGrowth
      rw [if_neg hg, if_neg hh]
      have hmono : Nat.sqrt (g.toNat / 100) ≤ Nat.sqrt (h.toNat / 100) := by
        apply Nat.sqrt_le_sqrt
        exact Nat.div_le_div_right (by omega)
      have : (1 : ℤ) + (Nat.sqrt (g.toNat / 100) : ℤ) ≤
          1 + (Nat.sqrt (h.toNat / 100) : ℤ) := by
        have := Int.ofNat_le.2 hmono
        omega
      exact max_le_max le_rfl this
  · norm_num [computeLevelFromGrowth]
  · norm_num [computeLevelFromGrowth]
    rw [show Int.toNat 100 / 100 = 1 from by decide, Nat.sqrt_one]
    decide
  · norm_num [computeLevelFromGrowth]
    rw [show Int.toNat 400 / 100 = 2 * 2 from by decide, Nat.sqrt_eq]
    decide

/-- Witness instantiating `C3_level_curve` at concrete growth values. -/
theorem C3_level_curve_witness :
    computeLevelFromGrowth 250 = 1 + ⌊Real.sqrt ((250 : ℝ) / 100)⌋ ∧
    1 ≤ computeLevelFromGrowth 250 :=
  ⟨C3_level_curve.1 250 (by decide), C3_level_curve.2.1 250⟩

/-- C9 counterexample: calling `addGrowthPoints` with the negative delta `-5`
on a concrete ledger neither raises an error nor changes anything — the source
silently returns on `delta <= 0`, so the claimed fatal, assertion-style failure
does not happen. -/
theorem C9_negative_delta_counterexample :
    addGrowthPoints sampleUser (-5) = sampleUser := by decide

/-- C9 (amended): a non-positive growth delta is silently tolerated:
`addGrowthPoints` returns the ledger completely unchanged and raises no
error. -/
theorem C9_nonpositive_delta_silent_noop :
    ∀ (u : User) (delta : Int), delta ≤ 0 → addGrowthPoints u delta = u := by
  intro u delta h
  unfold addGrowthPoints
  rw [if_pos h]

/-- Witness instantiating `C9_nonpositive_delta_silent_noop`. -/
theorem C9_nonpositive_delta_silent_noop_witness :
    addGrowthPoints sampleUser (-3) = sampleUser :=
  C9_nonpositive_delta_silent_noop sampleUser (-3) (by decide)

/-- C10: for every non-positive amount both `addCoins` and `spendCoins` are
silent no-ops returning the ledger unchanged, and `spendCoins` raises the
insufficient-funds error exactly when the amount is strictly positive and
exceeds the balance. -/
theorem C10_coin_noops :
    (∀ (u : User) (amount : Int), amount ≤ 0 →
      addCoins u amount = u ∧ spendCoins u amount = .ok u) ∧
    (∀ (u : User) (amount : Int),
      (∃ e, spendCoins u amount = .error e) ↔ 0 < amount ∧ u.coins < amount) := by
  constructor
  · intro u amount h
    refine ⟨?_, ?_⟩
    · unfold addCoins; rw [if_pos h]
    · unfold spendCoins; rw [if_pos h]
  · intro u amount
    unfold spendCoins
    by_cases h1 : amount ≤ 0
    · rw [if_pos h1]
      constructor
      · rintro ⟨e, he⟩
        exact Except.noConfusion he
      · rintro ⟨hpos, _⟩
        omega
    · rw [if_neg h1]
      by_cases h2 : amount > u.coins
      · rw [if_pos h2]
        exact ⟨fun _ => by omega, fun _ => ⟨_, rfl⟩⟩
      · rw [if_neg h2]
        constructor
        · rintro ⟨e, he⟩
          exact Except.noConfusion he
        · rintro ⟨hpos, hbal⟩
          omega

/-- Witness instantiating `C10_coin_noops` at a concrete ledger and amounts. -/
theorem C10_coin_noops_witness :
    addCoins sampleUser (-7) = sampleUser ∧
    (∃ e, spendCoins sampleUser 170 = .error e) :=
  ⟨(C10_coin_noops.1 sampleUser (-7) (by decide)).1,
   (C10_coin_noops.2 sampleUser 170).2 (by decide)⟩

/-! ## Reentrant transactions (`DatabaseManager.cpp`) -/

/-- A physical SQL statement issued through `executeNonQuery` by the
transaction-control methods. -/
inductive PhysOp
  | sqlBegin
  | sqlCommit
  | sqlRollback
  deriving DecidableEq

/-- The transaction-relevant state of `DatabaseManager`: whether
`m_transactionLock` currently owns the recursive mutex, and
`m_transactionDepth`. -/
structure DbState where
  ownsLock : Bool
  transactionDepth : Nat
  deriving DecidableEq

/-- `DatabaseManager::beginTransaction`: when the lock is not owned, acquire
it, issue a physical `BEGIN`, set depth to 1 and return `true`; otherwise only
increment the depth and return `false`.  The returned list records the
physical statements issued. -/
def beginTransaction (s : DbState) : DbState × Bool × List PhysOp :=
  if s.ownsLock then
    ({ s with transactionDepth := s.transactionDepth + 1 }, false, [])
  else
    ({ ownsLock := true, transactionDepth := 1 }, true, [PhysOp.sqlBegin])

/-- `DatabaseManager::commitTransaction`: throws when no transaction is
active or the depth is mismatched; issues the physical `COMMIT` (and releases
the lock) only when depth is 1; otherwise only decrements the depth. -/
def commitTransaction (s : DbState) : Except String (DbState × List PhysOp) :=
  if ¬ s.ownsLock then .error "No active transaction to commit"
  else if s.transactionDepth = 0 then .error "Transaction depth mismatch on commit"
  else if s.transactionDepth = 1 then
    .ok ({ ownsLock := false, transactionDepth := 0 }, [PhysOp.sqlCommit])
  else
    .ok ({ s with transactionDepth := s.transactionDepth - 1 }, [])

/-- `DatabaseManager::rollbackTransaction`: a no-op without an active
transaction; otherwise issues a physical `ROLLBACK`, resets the depth to 0 and
releases the lock. -/
def rollbackTransaction (s : DbState) : DbState × List PhysOp :=
  if ¬ s.ownsLock then (s, [])
  else ({ ownsLock := false, transactionDepth := 0 }, [PhysOp.sqlRollback])

/-- The code maintains: the lock is owned exactly while the depth is
positive. -/
def DbWf (s : DbState) : Prop :=
  s.ownsLock = true ↔ 0 < s.transactionDepth

instance (s : DbState) : Decidable (DbWf s) := by
  unfold DbWf
  infer_instance

/-- `n` successive `beginTransaction` calls, collecting physical statements. -/
def beginN : Nat → DbState → DbState × List PhysOp
  | 0, s => (s, [])
  | n + 1, s =>
    let r := beginTransaction s
    let r2 := beginN n r.1
    (r2.1, r.2.2 ++ r2.2)

/-- `n` successive `commitTransaction` calls, collecting physical
statements. -/
def commitN : Nat → DbState → Except String (DbState × List PhysOp)
  | 0, s => .ok (s, [])
  | n + 1, s =>
    match commitTransaction s with
    | .error e => .error e
    | .ok r =>
      match commitN n r.1 with
      | .error e => .error e
      | .ok r2 => .ok (r2.1, r.2 ++ r2.2)

lemma beginN_owned (n : Nat) (d : Nat) (hd : 0 < d) :
    beginN n ⟨true, d⟩ = (⟨true, d + n⟩, []) := by
  induction n generalizing d with
  | zero => simp [beginN]
  | succ m ih =>
    have hstep : beginTransaction ⟨true, d⟩ = (⟨true, d + 1⟩, false, []) := by
      simp [beginTransaction]
    simp only [beginN, hstep]
    rw [ih (d + 1) (by omega)]
    simp
    omega

lemma commitN_owned (n : Nat) :
    commitN (n + 1) ⟨true, n + 1⟩ = .ok (⟨false, 0⟩, [PhysOp.sqlCommit]) := by
  induction n with
  | zero => rfl
  | succ m ih =>
    have h1 : commitTransaction ⟨true, m + 1 + 1⟩ = .ok (⟨true, m + 1⟩, []) := by
      simp [commitTransaction]
    show (match commitTransaction ⟨true, m + 1 + 1⟩ with
      | .error e => .error e
      | .ok r =>
        match commitN (m + 1) r.1 with
        | .error e => .error e
        | .ok r2 => .ok (r2.1, r.2 ++ r2.2)) =
        Except.ok (⟨false, 0⟩, [PhysOp.sqlCommit])
    rw [h1]
    show (match commitN (m + 1) ⟨true, m + 1⟩ with
      | .error e => .error e
      | .ok r2 => Except.ok (r2.1, ([] : List PhysOp) ++ r2.2)) =
        Except.ok (⟨false, 0⟩, [PhysOp.sqlCommit])
    rw [ih]
    rfl

/-- C1: the reentrant transaction discipline.  `beginTransaction` returns
`true` exactly when it opens the physical transaction (depth 0 to 1, one
physical `BEGIN`), and nested calls only increment the depth and issue
nothing; `commitTransaction` issues the physical `COMMIT` exactly on the call
that returns the depth to 0, errors at depth 0, and otherwise only decrements;
`rollbackTransaction` resets the depth to 0; and a chain of `n+1` nested
begin/commit pairs from an idle state issues exactly one physical `BEGIN` and
one physical `COMMIT`, while aborting the chain issues exactly one physical
`ROLLBACK`. -/
theorem C1_reentrant_transactions :
    (∀ s : DbState, DbWf s →
      (((beginTransaction s).2.1 = true) ↔
        (s.transactionDepth = 0 ∧ (beginTransaction s).1.transactionDepth = 1 ∧
          (beginTransaction s).2.2 = [PhysOp.sqlBegin])) ∧
      (0 < s.transactionDepth →
        (beginTransaction s).2.1 = false ∧ (beginTransaction s).2.2 = [] ∧
          (beginTransaction s).1.transactionDepth = s.transactionDepth + 1)) ∧
    (∀ s : DbState, DbWf s →
      (s.transactionDepth = 0 → ∃ e, commitTransaction s = .error e) ∧
      (s.transactionDepth = 1 →
        commitTransaction s = .ok (⟨false, 0⟩, [PhysOp.sqlCommit])) ∧
      (2 ≤ s.transactionDepth →
        commitTransaction s =
          .ok (⟨s.ownsLock, s.transactionDepth - 1⟩, []))) ∧
    (∀ s : DbState, DbWf s → (rollbackTransaction s).1.transactionDepth = 0) ∧
    (∀ n : Nat,
      (beginN (n + 1) ⟨false, 0⟩).2 = [PhysOp.sqlBegin] ∧
      commitN (n + 1) (beginN (n + 1) ⟨false, 0⟩).1 =
        .ok (⟨false, 0⟩, [PhysOp.sqlCommit]) ∧
      (rollbackTransaction (beginN (n + 1) ⟨false, 0⟩).1).2 =
        [PhysOp.sqlRollback]) := by
  refine ⟨?_, ?_, ?_, ?_⟩
  · intro s hwf
    constructor
    · by_cases h : s.ownsLock
      · have hd : 0 < s.transactionDepth := (hwf.1 h)
        apply iff_of_false
        · simp [beginTransaction, h]
        · rintro ⟨h0, -, -⟩
          omega
      · have hd : s.transactionDepth = 0 := by
          rcases Nat.eq_zero_or_pos s.transactionDepth with h0 | hpos
          · exact h0
          · exact absurd (hwf.2 hpos) h
        simp [beginTransaction, h, hd]
    · intro hpos
      have h : s.ownsLock = true := hwf.2 hpos
      simp [beginTransaction, h]
  · intro s hwf
    refine ⟨?_, ?_, ?_⟩
    · intro h0
      have h : s.ownsLock = false := by
        rcases hb : s.ownsLock with _ | _
        · rfl
        · have := hwf.1 hb
          omega
      exact ⟨"No active transaction to commit", by simp [commitTransaction, h]⟩
    · intro h1
      have h : s.ownsLock = true := hwf.2 (by omega)
      simp [commitTransaction, h, h1]
    · intro h2
      have h : s.ownsLock = true := hwf.2 (by omega)
      have hne0 : s.transactionDepth ≠ 0 := by omega
      have hne1 : s.transactionDepth ≠ 1 := by omega
      simp [commitTransaction, h, hne0, hne1]
  · intro s hwf
    by_cases h : s.ownsLock
    · simp [rollbackTransaction, h]
    · have hd : s.transactionDepth = 0 := by
        rcases Nat.eq_zero_or_pos s.transactionDepth with h0 | hpos
        · exact h0
        · exact absurd (hwf.2 hpos) h
      simp [rollbackTransaction, h, hd]
  · intro n
    have hfirst : beginTransaction ⟨false, 0⟩ = (⟨true, 1⟩, true, [PhysOp.sqlBegin]) := by
      simp [beginTransaction]
    have hchain : beginN (n + 1) ⟨false, 0⟩ = (⟨true, 1 + n⟩, [PhysOp.sqlBegin]) := by
      simp only [beginN, hfirst]
      rw [beginN_owned n 1 (by omega)]
      simp
    rw [hchain]
    refine ⟨rfl, ?_, ?_⟩
    · rw [show (1 + n) = n + 1 from by omega]
      exact commitN_owned n
    · simp [rollbackTransaction]

/-- Witness instantiating `C1_reentrant_transactions` at a concrete idle
state and a nesting depth of 2. -/
theorem C1_reentrant_transactions_witness :
    ((beginTransaction ⟨false, 0⟩).2.1 = true ↔
      ((⟨false, 0⟩ : DbState).transactionDepth = 0 ∧
        (beginTransaction ⟨false, 0⟩).1.transactionDepth = 1 ∧
        (beginTransaction ⟨false, 0⟩).2.2 = [PhysOp.sqlBegin])) ∧
    commitN 2 (beginN 2 ⟨false, 0⟩).1 = .ok (⟨false, 0⟩, [PhysOp.sqlCommit]) :=
  ⟨(C1_reentrant_transactions.1 ⟨false, 0⟩ (by decide)).1,
   (C1_reentrant_transactions.2.2.2 1).2.1⟩

/-! ## Inventory effect cache (`InventoryManager.cpp`) -/

/-- `ShopItem::PropEffectType`. -/
inductive PropEffectType
  | NoEffect
  | RestDay
  | ForgivenessCoupon
  | DoubleExpCard
  deriving DecidableEq

/-- `InventoryManager::ActiveEffect`; time is embedded as an integer number of
seconds. -/
structure ActiveEffect where
  type : PropEffectType
  stack : Int
  expiresAt : Int
  deriving DecidableEq

/-- `kMaxEffectStack` in `InventoryManager.cpp`. -/
def kMaxEffectStack : Int := 3

/-- `InventoryManager::cleanupExpiredEffectsLocked` on one owner's bucket:
drop every entry with `expiresAt <= now`. -/
def cleanupExpiredEffectsLocked (bucket : List ActiveEffect) (now : Int) :
    List ActiveEffect :=
  bucket.filter (fun effect => decide (now < effect.expiresAt))

/-- Update the first entry of the list satisfying the predicate, leaving the
rest unchanged (the effect of `std::find_if` followed by an in-place write). -/
def updateFirst (p : ActiveEffect → Bool) (f : ActiveEffect → ActiveEffect) :
    List ActiveEffect → List ActiveEffect
  | [] => []
  | e :: rest => if p e then f e :: rest else e :: updateFirst p f rest

/-- `InventoryManager::registerEffectLocked` on one owner's bucket: prune
expired entries, then either create a new entry with stack
`min stackDelta kMaxEffectStack`, or bump the first entry of the same type to
`min (stack + stackDelta) kMaxEffectStack` and extend its expiry. -/
def registerEffectLocked (bucket : List ActiveEffect) (now : Int)
    (type : PropEffectType) (durationMinutes stackDelta : Int) :
    List ActiveEffect :=
  let pruned := cleanupExpiredEffectsLocked bucket now
  let duration := if 0 < durationMinutes then durationMinutes else 1440
  if pruned.any (fun effect => effect.type == type) then
    updateFirst (fun effect => effect.type == type)
      (fun effect =>
        { effect with
            stack := min (effect.stack + stackDelta) kMaxEffectStack
            expiresAt := effect.expiresAt + duration * 60 })
      pruned
  else
    pruned ++ [⟨type, min stackDelta kMaxEffectStack, now + duration * 60⟩]

/-- `InventoryManager::doubleExpMultiplier` on one owner's bucket: `1 + stack`
for the first unexpired DoubleExpCard entry, else `1` (the source returns a
double whose value is this integer). -/
def doubleExpMultiplier (bucket : List ActiveEffect) (now : Int) : Int :=
  match bucket.find? (fun effect =>
      effect.type == PropEffectType.DoubleExpCard && decide (now < effect.expiresAt)) with
  | some effect => 1 + effect.stack
  | none => 1

lemma updateFirst_mem {p : ActiveEffect → Bool} {f : ActiveEffect → ActiveEffect}
    {bucket : List ActiveEffect} {e : ActiveEffect}
    (he : e ∈ updateFirst p f bucket) :
    e ∈ bucket ∨ ∃ e0, e0 ∈ bucket ∧ e = f e0 := by
  induction bucket with
  | nil => cases he
  | cons hd tl ih =>
    by_cases hp : p hd
    · simp only [updateFirst, if_pos hp] at he
      rcases List.mem_cons.1 he with h | h
      · exact .inr ⟨hd, List.mem_cons_self hd tl, h⟩
      · exact .inl (List.mem_cons_of_mem hd h)
    · simp only [updateFirst, if_neg hp] at he
      rcases List.mem_cons.1 he with h | h
      · exact .inl (h ▸ List.mem_cons_self hd tl)
      · rcases ih h with h2 | ⟨e0, he0, hfe⟩
        · exact .inl (List.mem_cons_of_mem hd h2)
        · exact .inr ⟨e0, List.mem_cons_of_mem hd he0, hfe⟩

/-- All stacks in a register result stay at or below the cap when they did
before. -/
lemma registerEffectLocked_stack_le
    (bucket : List ActiveEffect) (now : Int) (type : PropEffectType)
    (durationMinutes stackDelta : Int)
    (hinv : ∀ e ∈ bucket, e.stack ≤ kMaxEffectStack) :
    ∀ e ∈ registerEffectLocked bucket now type durationMinutes stackDelta,
      e.stack ≤ kMaxEffectStack := by
  intro e he
  unfold registerEffectLocked at he
  simp only at he
  set pruned := cleanupExpiredEffectsLocked bucket now with hpruned
  have hprunedinv : ∀ x ∈ pruned, x.stack ≤ kMaxEffectStack := by
    intro x hx
    exact hinv x (List.mem_of_mem_filter hx)
  by_cases hany : pruned.any (fun effect => effect.type == type)
  · rw [if_pos hany] at he
    rcases updateFirst_mem he with h | ⟨e0, he0, hfe⟩
    · exact hprunedinv e h
    · rw [hfe]
      exact min_le_right _ _
  · rw [if_neg hany] at he
    rcases List.mem_append.1 he with h | h
    · exact hprunedinv e h
    · rcases List.mem_singleton.1 h with rfl
      exact min_le_right _ _

/-- C7: starting from any per-owner bucket whose stacks respect the cap of 3,
any sequence of `registerEffectLocked` calls (any types, durations and stack
deltas) keeps every stack at most 3 — in particular the entry created or
bumped for the registered type — and `doubleExpMultiplier` never exceeds 4 on
such a bucket (it is `1 + stack` for a live DoubleExpCard entry and 1
otherwise, and the stack is capped at 3). -/
theorem C7_effect_stack_cap :
    (∀ (bucket : List ActiveEffect) (now : Int) (type : PropEffectType)
        (durationMinutes stackDelta : Int),
      (∀ e ∈ bucket, e.stack ≤ 3) →
      ∀ e ∈ registerEffectLocked bucket now type durationMinutes stackDelta,
        e.stack ≤ 3) ∧
    (∀ (calls : List (Int × PropEffectType × Int × Int)),
      ∀ e ∈ calls.foldl
        (fun bucket call =>
          registerEffectLocked bucket call.1 call.2.1 call.2.2.1 call.2.2.2)
        ([] : List ActiveEffect),
        e.stack ≤ 3) ∧
    (∀ (bucket : List ActiveEffect) (now : Int),
      (∀ e ∈ bucket, e.stack ≤ 3) → doubleExpMultiplier bucket now ≤ 4) := by
  refine ⟨?_, ?_, ?_⟩
  · intro bucket now type durationMinutes stackDelta hinv e he
    exact registerEffectLocked_stack_le bucket now type durationMinutes stackDelta hinv e he
  · intro calls
    have general : ∀ (calls : List (Int × PropEffectType × Int × Int))
        (bucket : List ActiveEffect), (∀ e ∈ bucket, e.stack ≤ 3) →
        ∀ e ∈ calls.foldl
          (fun bucket call =>
            registerEffectLocked bucket call.1 call.2.1 call.2.2.1 call.2.2.2)
          bucket, e.stack ≤ 3 := by
      intro calls
      induction calls with
      | nil => intro bucket hinv e he; exact hinv e he
      | cons c rest ih =>
        intro bucket hinv e he
        exact ih _ (registerEffectLocked_stack_le bucket c.1 c.2.1 c.2.2.1 c.2.2.2 hinv) e he
    exact general calls [] (by intro e he; cases he)
  · intro bucket now hinv
    cases hfind : bucket.find? (fun effect =>
        effect.type == PropEffectType.DoubleExpCard && decide (now < effect.expiresAt)) with
    | none => simp [doubleExpMultiplier, hfind]
    | some e =>
      have hmem : e ∈ bucket := List.mem_of_find?_eq_some hfind
      have hs := hinv e hmem
      simp only [doubleExpMultiplier, hfind]
      omega

/-- Witness instantiating `C7_effect_stack_cap` at a concrete bucket. -/
theorem C7_effect_stack_cap_witness :
    (∀ e ∈ registerEffectLocked [⟨PropEffectType.DoubleExpCard, 3, 50⟩] 0
        PropEffectType.DoubleExpCard 60 1, e.stack ≤ 3) ∧
    doubleExpMultiplier [⟨PropEffectType.DoubleExpCard, 3, 50⟩] 0 ≤ 4 :=
  ⟨C7_effect_stack_cap.1 [⟨PropEffectType.DoubleExpCard, 3, 50⟩] 0
      PropEffectType.DoubleExpCard 60 1 (by decide),
   C7_effect_stack_cap.2.2 [⟨PropEffectType.DoubleExpCard, 3, 50⟩] 0 (by decide)⟩

/-! ## Achievement engine (`AchievementManager.cpp`, `Achievement.h`) -/

/-- `Achievement::Condition::ConditionType`. -/
inductive ConditionType
  | CompleteAnyTask
  | CompleteTaskType
  | ReachLevel
  | ReachPride
  | ReachCoins
  | CustomCounter
  deriving DecidableEq

/-- `Achievement::Condition`. -/
structure Condition where
  type : ConditionType
  targetValue : Int
  currentValue : Int
  metadata : String
  deriving DecidableEq

/-- `Achievement::Type`. -/
inductive AchievementType
  | System
  | Custom
  deriving DecidableEq

/-- `Achievement::RewardType`. -/
inductive RewardType
  | WithReward
  | NoReward
  deriving DecidableEq

/-- The fields of `Achievement` used by the condition engine and the custom
creation path; `createdMonth` stands for `strftime('%Y-%m', created_at)` of
the persisted record. -/
structure Achievement where
  owner : String
  type : AchievementType
  rewardType : RewardType
  conditions : List Condition
  progressValue : Int
  progressGoal : Int
  unlocked : Bool
  rewardCoins : Int
  createdMonth : String
  deriving DecidableEq

/-- `AchievementManager::recalculateProgress`: recompute the aggregate goal
(sum of targets, floored at 1) and progress (sum of per-condition currents
clamped by their targets, itself clamped by the goal); returns whether the
progress changed. -/
def recalculateProgress (achievement : Achievement) : Achievement × Bool :=
  let totalGoal :=
    achievement.conditions.foldl (fun acc c => acc + c.targetValue) 0
  let totalProgress :=
    achievement.conditions.foldl (fun acc c => acc + min c.targetValue c.currentValue) 0
  let clampedGoal := max 1 totalGoal
  let before := achievement.progressValue
  let updated :=
    { achievement with
        progressGoal := clampedGoal
        progressValue := min clampedGoal totalProgress }
  (updated, decide (before ≠ updated.progressValue))

/-- The metadata filter of the condition handlers: a condition is skipped when
both tags are non-empty and differ. -/
def metadataMatches (metadata conditionMetadata : String) : Prop :=
  ¬ (metadata ≠ "" ∧ conditionMetadata ≠ "" ∧ metadata ≠ conditionMetadata)

instance (metadata conditionMetadata : String) :
    Decidable (metadataMatches metadata conditionMetadata) := by
  unfold metadataMatches
  infer_instance

/-- `AchievementManager::updateConditionCache`: increment-and-clamp every
matching condition's current value into `[0, target]`; a zero delta is a
no-op. -/
def updateConditionCache (achievement : Achievement) (type : ConditionType)
    (delta : Int) (metadata : String) : Achievement :=
  if delta = 0 then achievement
  else
    { achievement with
        conditions := achievement.conditions.map (fun c =>
          if c.type = type ∧ metadataMatches metadata c.metadata then
            { c with currentValue := cppClamp (c.currentValue + delta) 0 c.targetValue }
          else c) }

/-- `AchievementManager::replaceConditionValue`: replace-and-clamp every
matching condition's current value into `[0, target]`. -/
def replaceConditionValue (achievement : Achievement) (type : ConditionType)
    (value : Int) (metadata : String) : Achievement :=
  { achievement with
      conditions := achievement.conditions.map (fun c =>
        if c.type = type ∧ metadataMatches metadata c.metadata then
          { c with currentValue := cppClamp value 0 c.targetValue }
        else c) }

/-- `AchievementManager::evaluateCompletion` restricted to the achievement
record: returns unchanged when already unlocked or the goal is not reached,
otherwise sets `unlocked` (reward granting mutates only the ledger, via
`addCoins`/`applyAttributeBonus`/`recordAchievementUnlock` above). -/
def evaluateCompletion (achievement : Achievement) : Achievement :=
  if achievement.unlocked then achievement
  else if achievement.progressValue < achievement.progressGoal then achievement
  else { achievement with unlocked := true }

lemma foldl_add_nonneg (f : Condition → Int) (l : List Condition) (init : Int)
    (h0 : 0 ≤ init) (h : ∀ c ∈ l, 0 ≤ f c) :
    0 ≤ l.foldl (fun acc c => acc + f c) init := by
  induction l generalizing init with
  | nil => exact h0
  | cons hd tl ih =>
    have hh := h hd (List.mem_cons_self hd tl)
    exact ih (init + f hd) (by omega) (fun c hc => h c (List.mem_cons_of_mem hd hc))

lemma foldl_add_le (f g : Condition → Int) (l : List Condition) (x y : Int)
    (hxy : x ≤ y) (h : ∀ c ∈ l, f c ≤ g c) :
    l.foldl (fun acc c => acc + f c) x ≤ l.foldl (fun acc c => acc + g c) y := by
  induction l generalizing x y with
  | nil => exact hxy
  | cons hd tl ih =>
    have hh := h hd (List.mem_cons_self hd tl)
    exact ih (x + f hd) (y + g hd) (by omega)
      (fun c hc => h c (List.mem_cons_of_mem hd hc))

/-- The per-condition invariant the engine maintains: a nonnegative target
and a current value inside `[0, target]`. -/
def conditionWf (c : Condition) : Prop :=
  0 ≤ c.targetValue ∧ 0 ≤ c.currentValue ∧ c.currentValue ≤ c.targetValue

instance (c : Condition) : Decidable (conditionWf c) := by
  unfold conditionWf
  infer_instance

lemma cppClamp_bounds (v t : Int) (ht : 0 ≤ t) :
    0 ≤ cppClamp v 0 t ∧ cppClamp v 0 t ≤ t := by
  unfold cppClamp
  split_ifs <;> omega

lemma mapConditions_wf (conditions : List Condition) (type : ConditionType)
    (metadata : String) (g : Condition → Int)
    (hinv : ∀ c ∈ conditions, conditionWf c) :
    ∀ c ∈ conditions.map (fun c =>
        if c.type = type ∧ metadataMatches metadata c.metadata then
          { c with currentValue := cppClamp (g c) 0 c.targetValue }
        else c), conditionWf c := by
  intro c hcm
  simp only [List.mem_map] at hcm
  obtain ⟨c0, hc0, hmap⟩ := hcm
  by_cases hif : c0.type = type ∧ metadataMatches metadata c0.metadata
  · rw [if_pos hif] at hmap
    have ht : 0 ≤ c0.targetValue := (hinv c0 hc0).1
    have hb := cppClamp_bounds (g c0) c0.targetValue ht
    rw [← hmap]
    exact ⟨ht, hb.1, hb.2⟩
  · rw [if_neg hif] at hmap
    rw [← hmap]
    exact hinv c0 hc0

/-- C5: with every condition well formed (nonnegative target, current in
`[0, target]` — the state the engine maintains), `recalculateProgress` yields
`0 ≤ progressValue ≤ progressGoal` with `progressGoal` the target sum floored
at 1 and `progressValue` the sum of the target-clamped currents; the
condition handlers preserve condition well-formedness; and the `unlocked`
flag is monotone under every engine operation — the three condition/progress
operations never touch it and `evaluateCompletion` never clears it. -/
theorem C5_progress_bounds_and_monotonic_unlock :
    (∀ achievement : Achievement,
      (∀ c ∈ achievement.conditions, conditionWf c) →
      0 ≤ (recalculateProgress achievement).1.progressValue ∧
      (recalculateProgress achievement).1.progressValue ≤
        (recalculateProgress achievement).1.progressGoal ∧
      1 ≤ (recalculateProgress achievement).1.progressGoal ∧
      (recalculateProgress achievement).1.progressGoal =
        max 1 (achievement.conditions.foldl (fun acc c => acc + c.targetValue) 0) ∧
      (recalculateProgress achievement).1.progressValue =
        achievement.conditions.foldl
          (fun acc c => acc + min c.targetValue c.currentValue) 0) ∧
    (∀ (achievement : Achievement) (type : ConditionType) (delta : Int)
        (metadata : String),
      (∀ c ∈ achievement.conditions, conditionWf c) →
      ∀ c ∈ (updateConditionCache achievement type delta metadata).conditions,
        conditionWf c) ∧
    (∀ (achievement : Achievement) (type : ConditionType) (value : Int)
        (metadata : String),
      (∀ c ∈ achievement.conditions, conditionWf c) →
      ∀ c ∈ (replaceConditionValue achievement type value metadata).conditions,
        conditionWf c) ∧
    (∀ (achievement : Achievement) (type : ConditionType) (delta value : Int)
        (metadata : String),
      (recalculateProgress achievement).1.unlocked = achievement.unlocked ∧
      (updateConditionCache achievement type delta metadata).unlocked =
        achievement.unlocked ∧
      (replaceConditionValue achievement type value metadata).unlocked =
        achievement.unlocked ∧
      (achievement.unlocked = true → (evaluateCompletion achievement).unlocked = true)) := by
  refine ⟨?_, ?_, ?_, ?_⟩
  · intro achievement hc
    have hgoal0 : 0 ≤ achievement.conditions.foldl (fun acc c => acc + c.targetValue) 0 :=
      foldl_add_nonneg _ _ 0 le_rfl (fun c hcm => (hc c hcm).1)
    have hprog0 : 0 ≤ achievement.conditions.foldl
        (fun acc c => acc + min c.targetValue c.currentValue) 0 :=
      foldl_add_nonneg _ _ 0 le_rfl
        (fun c hcm => le_min (hc c hcm).1 (hc c hcm).2.1)
    have hPG : achievement.conditions.foldl
          (fun acc c => acc + min c.targetValue c.currentValue) 0 ≤
        achievement.conditions.foldl (fun acc c => acc + c.targetValue) 0 :=
      foldl_add_le _ _ _ 0 0 le_rfl (fun c _ => min_le_left _ _)
    simp only [recalculateProgress]
    refine ⟨?_, ?_, ?_, trivial, ?_⟩
    · exact le_min (by omega) hprog0
    · exact min_le_left _ _
    · exact le_max_left 1 _
    · exact min_eq_right (hPG.trans (le_max_right 1 _))
  · intro achievement type delta metadata hinv c hcm
    by_cases hδ : delta = 0
    · rw [updateConditionCache, if_pos hδ] at hcm
      exact hinv c hcm
    · rw [updateConditionCache, if_neg hδ] at hcm
      exact mapConditions_wf achievement.conditions type metadata
        (fun c => c.currentValue + delta) hinv c hcm
  · intro achievement type value metadata hinv c hcm
    rw [replaceConditionValue] at hcm
    exact mapConditions_wf achievement.conditions type metadata
      (fun _ => value) hinv c hcm
  · intro achievement type delta value metadata
    refine ⟨rfl, ?_, rfl, ?_⟩
    · unfold updateConditionCache
      split_ifs <;> rfl
    · intro hu
      simp [evaluateCompletion, hu]

/-- Witness instantiating `C5_progress_bounds_and_monotonic_unlock` at a
concrete achievement. -/
theorem C5_progress_bounds_witness :
    0 ≤ (recalculateProgress
      ⟨"stu", .Custom, .WithReward,
        [⟨.ReachLevel, 5, 2, ""⟩, ⟨.ReachCoins, 10, 7, ""⟩], 0, 1, false, 20, "2024-01"⟩).1.progressValue ∧
    (evaluateCompletion
      ⟨"stu", .Custom, .WithReward, [], 1, 1, true, 0, "2024-01"⟩).unlocked = true :=
  ⟨(C5_progress_bounds_and_monotonic_unlock.1
      ⟨"stu", .Custom, .WithReward,
        [⟨.ReachLevel, 5, 2, ""⟩, ⟨.ReachCoins, 10, 7, ""⟩], 0, 1, false, 20, "2024-01"⟩
      (by decide)).1,
   (C5_progress_bounds_and_monotonic_unlock.2.2.2
      ⟨"stu", .Custom, .WithReward, [], 1, 1, true, 0, "2024-01"⟩
      .ReachLevel 0 0 "").2.2.2 rfl⟩

/-- `DatabaseManager::countCustomRewardAchievements`: the number of persisted
achievements of the owner that are Custom, reward-bearing and created in the
given month. -/
def countCustomRewardAchievements (records : List Achievement)
    (owner monthToken : String) : Int :=
  ((records.filter (fun r =>
      r.owner == owner && r.type == AchievementType.Custom &&
      r.rewardType == RewardType.WithReward && r.createdMonth == monthToken)).length : Int)

/-- `AchievementManager::validateCustomAchievement` with the month count
abstracted: empty conditions or any non-positive target give `false`;
a reward-bearing achievement with 2 or more reward-bearing custom
achievements already created this month throws the quota error. -/
def validateCustomAchievement (achievement : Achievement)
    (usedThisMonth : Int) : Except String Bool :=
  if achievement.conditions.isEmpty then .ok false
  else if achievement.conditions.any (fun c => decide (c.targetValue ≤ 0)) then .ok false
  else if achievement.rewardType = RewardType.WithReward ∧ 2 ≤ usedThisMonth then
    .error "Monthly reward-bearing custom achievement quota reached"
  else .ok true

/-- `AchievementManager::createCustomAchievement` against a persisted record
list: stamp owner, Custom type and creation month, validate (the quota error
and the validation failure both propagate before anything is written), then
reset and recalculate progress and append the new record. -/
def createCustomAchievement (records : List Achievement)
    (activeUsername currentMonth : String) (achievement : Achievement) :
    Except String (List Achievement × Achievement) :=
  let stamped :=
    { achievement with
        owner := activeUsername
        type := AchievementType.Custom
        createdMonth := currentMonth }
  match validateCustomAchievement stamped
      (countCustomRewardAchievements records activeUsername currentMonth) with
  | .error e => .error e
  | .ok false => .error "Custom achievement validation failed"
  | .ok true =>
    let created := (recalculateProgress { stamped with progressValue := 0 }).1
    .ok (records ++ [created], created)

/-- C8: with well-formed conditions (non-empty, all targets positive), a
reward-bearing custom achievement fails with the quota error exactly when the
owner already has at least 2 reward-bearing custom achievements this month —
in particular a third one fails — and the failure happens before any record
is appended; a non-reward custom achievement in the same situation still
succeeds and appends one record. -/
theorem C8_custom_achievement_quota :
    ∀ (records : List Achievement) (activeUsername currentMonth : String)
      (achievement : Achievement),
      achievement.conditions ≠ [] →
      (∀ c ∈ achievement.conditions, 0 < c.targetValue) →
      (achievement.rewardType = RewardType.WithReward →
        2 ≤ countCustomRewardAchievements records activeUsername currentMonth →
        createCustomAchievement records activeUsername currentMonth achievement =
          .error "Monthly reward-bearing custom achievement quota reached") ∧
      (achievement.rewardType = RewardType.NoReward →
        ∃ created,
          createCustomAchievement records activeUsername currentMonth achievement =
            .ok (records ++ [created], created)) := by
  intro records activeUsername currentMonth achievement hne htargets
  have hempty :
      (({ achievement with
          owner := activeUsername
          type := AchievementType.Custom
          createdMonth := currentMonth } : Achievement).conditions.isEmpty) = false := by
    simp only [List.isEmpty_eq_false]
    exact hne
  have hany :
      (({ achievement with
          owner := activeUsername
          type := AchievementType.Custom
          createdMonth := currentMonth } : Achievement).conditions.any
        (fun c => decide (c.targetValue ≤ 0))) = false := by
    simp only [List.any_eq_false, decide_eq_true_eq]
    intro c hc
    have := htargets c hc
    omega
  constructor
  · intro hreward hquota
    unfold createCustomAchievement validateCustomAchievement
    simp only [hempty, hany, Bool.false_eq_true, if_false, if_pos (And.intro hreward hquota)]
  · intro hnoreward
    unfold createCustomAchievement validateCustomAchievement
    have hnot : ¬ (({ achievement with
        owner := activeUsername
        type := AchievementType.Custom
        createdMonth := currentMonth } : Achievement).rewardType = RewardType.WithReward ∧
        2 ≤ countCustomRewardAchievements records activeUsername currentMonth) := by
      rintro ⟨hw, -⟩
      rw [show ({ achievement with
          owner := activeUsername
          type := AchievementType.Custom
          createdMonth := currentMonth } : Achievement).rewardType =
            achievement.rewardType from rfl] at hw
      rw [hnoreward] at hw
      exact RewardType.noConfusion hw
    simp only [hempty, hany, Bool.false_eq_true, if_false, if_neg hnot]
    exact ⟨_, rfl⟩

/-- Witness instantiating `C8_custom_achievement_quota`: with 2 reward-bearing
customs already created this month, a third reward-bearing one fails while a
non-reward one succeeds. -/
theorem C8_custom_achievement_quota_witness :
    createCustomAchievement
      [⟨"stu", .Custom, .WithReward, [⟨.ReachLevel, 1, 0, ""⟩], 0, 1, false, 5, "2024-01"⟩,
       ⟨"stu", .Custom, .WithReward, [⟨.ReachCoins, 1, 0, ""⟩], 0, 1, false, 5, "2024-01"⟩]
      "stu" "2024-01"
      ⟨"stu", .Custom, .WithReward, [⟨.ReachPride, 3, 0, ""⟩], 0, 1, false, 9, "2024-01"⟩ =
      .error "Monthly reward-bearing custom achievement quota reached" ∧
    (∃ created, createCustomAchievement
      [⟨"stu", .Custom, .WithReward, [⟨.ReachLevel, 1, 0, ""⟩], 0, 1, false, 5, "2024-01"⟩,
       ⟨"stu", .Custom, .WithReward, [⟨.ReachCoins, 1, 0, ""⟩], 0, 1, false, 5, "2024-01"⟩]
      "stu" "2024-01"
      ⟨"stu", .Custom, .NoReward, [⟨.ReachPride, 3, 0, ""⟩], 0, 1, false, 0, "2024-01"⟩ =
      .ok ([⟨"stu", .Custom, .WithReward, [⟨.ReachLevel, 1, 0, ""⟩], 0, 1, false, 5, "2024-01"⟩,
       ⟨"stu", .Custom, .WithReward, [⟨.ReachCoins, 1, 0, ""⟩], 0, 1, false, 5, "2024-01"⟩] ++ [created], created)) :=
  ⟨(C8_custom_achievement_quota _ "stu" "2024-01"
      ⟨"stu", .Custom, .WithReward, [⟨.ReachPride, 3, 0, ""⟩], 0, 1, false, 9, "2024-01"⟩
      (by decide) (by decide)).1 rfl (by decide),
   (C8_custom_achievement_quota _ "stu" "2024-01"
      ⟨"stu", .Custom, .NoReward, [⟨.ReachPride, 3, 0, ""⟩], 0, 1, false, 0, "2024-01"⟩
      (by decide) (by decide)).2 rfl⟩

/-! ## Task lifecycle (`TaskManager.cpp`, `Task.h`, `UserManager.cpp`) -/

/-- `Task::TaskType`. -/
inductive TaskType
  | Daily
  | Weekly
  | Semester
  | Custom
  deriving DecidableEq

/-- The fields of `Task` used by the reward computation. -/
structure Task where
  type : TaskType
  difficultyStars : Int
  coinReward : Int
  growthReward : Int
  bonusStreak : Int
  attributeReward : AttributeSet
  completed : Bool
  progressValue : Int
  progressGoal : Int
  deriving DecidableEq

/-- `TaskManager::difficultyFactor`: `1 + (stars - 1) * 0.15`, plus `0.35`
for Semester and `0.1` for Weekly tasks. -/
def difficultyFactor (task : Task) : ℚ :=
  let factor : ℚ := 1 + ((task.difficultyStars : ℚ) - 1) * (15 / 100)
  match task.type with
  | .Semester => factor + 35 / 100
  | .Weekly => factor + 1 / 10
  | _ => factor

/-- `TaskManager::streakFactor`: `1 + bonusStreak * 0.05`. -/
def streakFactor (task : Task) : ℚ :=
  1 + (task.bonusStreak : ℚ) * (5 / 100)

/-- The `finalCoins` local of `TaskManager::applyRewardsLocked`:
`max(0, round(coinReward * rewardFactor))`. -/
def finalCoins (task : Task) : Int :=
  max 0 (cppRound ((task.coinReward : ℚ) * (difficultyFactor task * streakFactor task)))

/-- The `finalGrowth` local of `TaskManager::applyRewardsLocked`. -/
def finalGrowth (task : Task) : Int :=
  max 0 (cppRound ((task.growthReward : ℚ) * (difficultyFactor task * streakFactor task)))

/-- `TaskManager::mapToUserCategory`. -/
def mapToUserCategory (type : TaskType) : TaskCategory :=
  match type with
  | .Daily => .Academic
  | .Weekly => .Social
  | .Semester => .Academic
  | .Custom => .Personal

/-- `UserManager::applyTaskCompletion`: growth, coins, attribute bonus, then
the completion counter (persistence and signal emission omitted: they do not
change the ledger). -/
def applyTaskCompletion (u : User) (growthGain coinGain : Int)
    (attributeBonus : AttributeSet) (category : TaskCategory) : User :=
  let u := if 0 < growthGain then addGrowthPoints u growthGain else u
  let u := if 0 < coinGain then addCoins u coinGain else u
  let u := applyAttributeBonus u attributeBonus
  recordTaskCompletion u category

/-- `TaskManager::m_completionStats`. -/
structure CompletionStats where
  daily : Int
  weekly : Int
  semester : Int
  custom : Int
  deriving DecidableEq

/-- Read one completion counter. -/
def statOf (stats : CompletionStats) (type : TaskType) : Int :=
  match type with
  | .Daily => stats.daily
  | .Weekly => stats.weekly
  | .Semester => stats.semester
  | .Custom => stats.custom

/-- `m_completionStats[task.type()] += 1`. -/
def bumpStat (stats : CompletionStats) (type : TaskType) : CompletionStats :=
  match type with
  | .Daily => { stats with daily := stats.daily + 1 }
  | .Weekly => { stats with weekly := stats.weekly + 1 }
  | .Semester => { stats with semester := stats.semester + 1 }
  | .Custom => { stats with custom := stats.custom + 1 }

/-- `TaskManager::applyRewardsLocked` (the transaction wrapper is the
`beginTransaction`/`commitTransaction` pair modelled above; on the success
path the net ledger/task/stat effect is as follows): compute the reward
factor, pay coins/growth/attributes into the ledger, grant the Weekly-streak
and every-10th-completion achievement counters, and mark the task
completed with its streak incremented and progress forced to the goal. -/
def applyRewardsLocked (stats : CompletionStats) (task : Task) (u : User) :
    CompletionStats × Task × User :=
  let fc := finalCoins task
  let fg := finalGrowth task
  let finalAttributes := task.attributeReward
  let finalAttributes :=
    match task.type with
    | .Daily => { finalAttributes with execution := finalAttributes.execution + 1 }
    | .Weekly =>
      { finalAttributes with social := finalAttributes.social + task.difficultyStars }
    | .Semester =>
      { finalAttributes with
          knowledge := finalAttributes.knowledge + task.difficultyStars * 2
          perseverance := finalAttributes.perseverance + task.difficultyStars }
    | .Custom => finalAttributes
  let u := applyTaskCompletion u fg fc finalAttributes (mapToUserCategory task.type)
  let u :=
    if task.type = TaskType.Weekly ∧ (task.bonusStreak + 1) % 4 = 0 then
      recordAchievementUnlock u
    else u
  let task :=
    { task with
        completed := true
        bonusStreak := task.bonusStreak + 1
        progressValue := task.progressGoal }
  let stats := bumpStat stats task.type
  let u := if statOf stats task.type % 10 = 0 then recordAchievementUnlock u else u
  (stats, task, u)

/-- `TaskManager::markTaskCompleted` on a found task: a no-op when the task is
already completed, otherwise `applyRewardsLocked`. -/
def markTaskCompleted (stats : CompletionStats) (task : Task) (u : User) :
    CompletionStats × Task × User :=
  if task.completed then (stats, task, u) else applyRewardsLocked stats task u

/-- The reward factor exactly as the spec words it:
`(1 + (stars-1)*0.15 + semester/weekly addend) * (1 + bonusStreak*0.05)`. -/
def specRewardFactor (task : Task) : ℚ :=
  ((1 + ((task.difficultyStars : ℚ) - 1) * (15 / 100)) +
      (if task.type = TaskType.Semester then 35 / 100
        else if task.type = TaskType.Weekly then 10 / 100 else 0)) *
    (1 + (task.bonusStreak : ℚ) * (5 / 100))

/-- The Daily example task of the spec: 3 stars, rewards 100/50, streak 0. -/
def exampleDailyTask : Task where
  type := TaskType.Daily
  difficultyStars := 3
  coinReward := 100
  growthReward := 50
  bonusStreak := 0
  attributeReward := ⟨0, 0, 0, 0, 0, 0⟩
  completed := false
  progressValue := 0
  progressGoal := 1

/-- C4: the code's reward factor coincides with the spec formula, the paid
coins and growth are that factor applied to the base rewards, rounded and
floored at 0; completing the example Daily task (3 stars, 100/50 rewards,
streak 0) pays exactly 130 coins and 65 growth and raises execution by 1. -/
theorem C4_reward_computation :
    (∀ task : Task,
      difficultyFactor task * streakFactor task = specRewardFactor task) ∧
    (∀ task : Task,
      finalCoins task = max 0 (cppRound ((task.coinReward : ℚ) * specRewardFactor task)) ∧
      finalGrowth task = max 0 (cppRound ((task.growthReward : ℚ) * specRewardFactor task))) ∧
    finalCoins exampleDailyTask = 130 ∧
    finalGrowth exampleDailyTask = 65 ∧
    (markTaskCompleted ⟨0, 0, 0, 0⟩ exampleDailyTask sampleUser).2.2.coins =
      sampleUser.coins + 130 ∧
    (markTaskCompleted ⟨0, 0, 0, 0⟩ exampleDailyTask sampleUser).2.2.growthPoints =
      sampleUser.growthPoints + 65 ∧
    (markTaskCompleted ⟨0, 0, 0, 0⟩ exampleDailyTask sampleUser).2.2.attributes.execution =
      sampleUser.attributes.execution + 1 ∧
    (markTaskCompleted ⟨0, 0, 0, 0⟩ exampleDailyTask sampleUser).2.1.completed = true := by
  have hfactor : ∀ task : Task,
      difficultyFactor task * streakFactor task = specRewardFactor task := by
    intro task
    unfold difficultyFactor streakFactor specRewardFactor
    rcases htype : task.type with _ | _ | _ | _ <;> simp [htype] <;> norm_num
  have hcoins130 : finalCoins exampleDailyTask = 130 := by
    unfold finalCoins exampleDailyTask difficultyFactor streakFactor
    norm_num [cppRound]
  have hgrowth65 : finalGrowth exampleDailyTask = 65 := by
    unfold finalGrowth exampleDailyTask difficultyFactor streakFactor
    norm_num [cppRound]
  have hmark : markTaskCompleted ⟨0, 0, 0, 0⟩ exampleDailyTask sampleUser =
      applyRewardsLocked ⟨0, 0, 0, 0⟩ exampleDailyTask sampleUser := by
    unfold markTaskCompleted exampleDailyTask
    rfl
  have happly :
      (applyRewardsLocked ⟨0, 0, 0, 0⟩ exampleDailyTask sampleUser).2.2.coins =
        sampleUser.coins + 130 ∧
      (applyRewardsLocked ⟨0, 0, 0, 0⟩ exampleDailyTask sampleUser).2.2.growthPoints =
        sampleUser.growthPoints + 65 ∧
      (applyRewardsLocked ⟨0, 0, 0, 0⟩ exampleDailyTask sampleUser).2.2.attributes.execution =
        sampleUser.attributes.execution + 1 ∧
      (applyRewardsLocked ⟨0, 0, 0, 0⟩ exampleDailyTask sampleUser).2.1.completed = true := by
    unfold applyRewardsLocked
    rw [hcoins130, hgrowth65]
    refine ⟨?_, ?_, ?_, rfl⟩ <;>
      simp [exampleDailyTask, sampleUser, applyTaskCompletion, addGrowthPoints,
        addCoins, applyAttributeBonus, recordTaskCompletion, recordAchievementUnlock,
        mapToUserCategory, statOf, bumpStat, recalculateLevel, clampAttributes,
        clampAttributeValue, cppClamp, AttributeSet.add, computeLevelFromGrowth]
  refine ⟨hfactor, ?_, hcoins130, hgrowth65, ?_, ?_, ?_, ?_⟩
  · intro task
    constructor
    · unfold finalCoins
      rw [hfactor]
    · unfold finalGrowth
      rw [hfactor]
  · rw [hmark]; exact happly.1
  · rw [hmark]; exact happly.2.1
  · rw [hmark]; exact happly.2.2.1
  · rw [hmark]; exact happly.2.2.2

/-! ## Shop pricing and purchase (`ShopManager.cpp`, `ShopItem.h`) -/

/-- `ShopItem::LuckyBagReward::RewardType` (`ShopItem` there refers to a
referenced catalog item). -/
inductive LuckyRewardType
  | Coins
  | ShopItemRef
  | Growth
  deriving DecidableEq

/-- `ShopItem::LuckyBagReward`; default-constructed probability is `0.0`. -/
structure LuckyBagReward where
  type : LuckyRewardType
  amount : Int
  probability : ℚ
  referenceItemId : Int
  description : String
  deriving DecidableEq

/-- `ShopItem::ItemType` (`Prop` is a Lean keyword, embedded as
`PropItem`). -/
inductive ItemType
  | Physical
  | PropItem
  | LuckyBag
  deriving DecidableEq

/-- The fields of `ShopItem` used by pricing and purchase. -/
structure ShopItem where
  id : Int
  itemType : ItemType
  priceCoins : Int
  purchaseLimit : Int
  propEffectType : PropEffectType
  effectDurationMinutes : Int
  levelRequirement : Int
  available : Bool
  luckyRewards : List LuckyBagReward
  deriving DecidableEq

/-- `kThreeStarRewardBaseline` in `ShopManager.cpp`. -/
def kThreeStarRewardBaseline : Int := 60

/-- `ShopManager::applyPricingStrategy`: default non-positive prices to the
baseline; clamp Physical into `[5x, 10x]` baseline; price Prop items per
30-minute unit with a 1.5 weight for DoubleExpCard, floored at half the
baseline; price LuckyBags at `max(1.2 x expected value, baseline)`.  The
integer divisions only see positive operands, so C++ and Lean division
agree. -/
def applyPricingStrategy (item : ShopItem) : ShopItem :=
  let priced :=
    if item.priceCoins ≤ 0 then { item with priceCoins := kThreeStarRewardBaseline }
    else item
  match priced.itemType with
  | .Physical =>
    let minPrice := kThreeStarRewardBaseline * 5
    let maxPrice := kThreeStarRewardBaseline * 10
    { priced with priceCoins := max minPrice (min priced.priceCoins maxPrice) }
  | .PropItem =>
    let duration := max priced.effectDurationMinutes 30
    let weight : ℚ :=
      if priced.propEffectType = PropEffectType.DoubleExpCard then 3 / 2 else 1
    let unitCount := (duration + 29) / 30
    let price := cppTrunc ((kThreeStarRewardBaseline : ℚ) * weight * (unitCount : ℚ))
    { priced with priceCoins := max price (kThreeStarRewardBaseline / 2) }
  | .LuckyBag =>
    let expected : ℚ :=
      if priced.luckyRewards.isEmpty then (kThreeStarRewardBaseline : ℚ)
      else
        priced.luckyRewards.foldl
          (fun acc reward =>
            match reward.type with
            | .Coins => acc + (reward.amount : ℚ) * reward.probability
            | .Growth => acc + (reward.amount : ℚ) * reward.probability
            | .ShopItemRef => acc + (kThreeStarRewardBaseline : ℚ) * reward.probability)
          0
    let price := cppTrunc (max (expected * (12 / 10)) (kThreeStarRewardBaseline : ℚ))
    { priced with priceCoins := price }

/-- One `user_inventory` row as far as purchase counting is concerned. -/
structure InventoryRecord where
  owner : String
  itemId : Int
  quantity : Int
  deriving DecidableEq

/-- `DatabaseManager::countInventoryByUserAndItem`:
`SUM(quantity)` over the owner's rows for the item. -/
def countInventoryByUserAndItem (inventory : List InventoryRecord)
    (owner : String) (itemId : Int) : Int :=
  (inventory.filter (fun r => r.owner == owner && r.itemId == itemId)).foldl
    (fun acc r => acc + r.quantity) 0

/-- The distinct failure reasons of `ShopManager::purchaseItem` /
`validatePurchase` (each corresponds to one distinct message string in the
source). -/
inductive PurchaseFailure
  | notLoggedIn
  | itemMissing
  | quantityNotPositive
  | notAvailable
  | levelTooLow
  | insufficientFunds
  | purchaseLimitReached
  deriving DecidableEq

/-- `ShopManager::validatePurchase`, in the source's check order: quantity,
availability, level, funds, purchase limit. -/
def validatePurchase (item : ShopItem) (user : User) (quantity purchased : Int) :
    Option PurchaseFailure :=
  if quantity ≤ 0 then some .quantityNotPositive
  else if item.available = false then some .notAvailable
  else if user.level < item.levelRequirement then some .levelTooLow
  else if user.coins < item.priceCoins * quantity then some .insufficientFunds
  else if 0 < item.purchaseLimit ∧ item.purchaseLimit < purchased + quantity then
    some .purchaseLimitReached
  else none

/-- The validation order as the spec words it: availability before the
quantity check (everything else unchanged). -/
def specOrderValidatePurchase (item : ShopItem) (user : User)
    (quantity purchased : Int) : Option PurchaseFailure :=
  if item.available = false then some .notAvailable
  else if quantity ≤ 0 then some .quantityNotPositive
  else if user.level < item.levelRequirement then some .levelTooLow
  else if user.coins < item.priceCoins * quantity then some .insufficientFunds
  else if 0 < item.purchaseLimit ∧ item.purchaseLimit < purchased + quantity then
    some .purchaseLimitReached
  else none

/-- The state `purchaseItem` can read and mutate. -/
structure ShopState where
  activeUser : Option User
  username : String
  catalog : List ShopItem
  inventory : List InventoryRecord
  deriving DecidableEq

/-- The outcome reported by `PurchaseResult`. -/
inductive PurchaseOutcome
  | failed (reason : PurchaseFailure)
  | succeeded
  deriving DecidableEq

/-- `ShopManager::purchaseItem`: session check, catalog lookup, pricing,
validation — each failure returns before any mutation — then, inside the
transaction, spend the coins and append `quantity` inventory rows; an
exception inside the transaction rolls everything back (state unchanged) and
propagates, which the embedding reports as a failure with the original
state. -/
def purchaseItem (st : ShopState) (itemId quantity : Int) :
    PurchaseOutcome × ShopState :=
  match st.activeUser with
  | none => (.failed .notLoggedIn, st)
  | some user =>
    match st.catalog.find? (fun i => i.id == itemId) with
    | none => (.failed .itemMissing, st)
    | some found =>
      let item := applyPricingStrategy found
      match validatePurchase item user quantity
          (countInventoryByUserAndItem st.inventory st.username item.id) with
      | some reason => (.failed reason, st)
      | none =>
        let totalCost := item.priceCoins * quantity
        match spendCoins user totalCost with
        | .error _ => (.failed .insufficientFunds, st)
        | .ok user2 =>
          (.succeeded,
            { st with
                activeUser := some user2
                inventory :=
                  st.inventory ++
                    List.replicate quantity.toNat ⟨st.username, item.id, 1⟩ })

/-- The concrete price-60 item of the spec example: a RestDay prop with a
30-minute duration prices to exactly 60 coins under the pricing strategy. -/
def exampleItem60 : ShopItem where
  id := 7
  itemType := ItemType.PropItem
  priceCoins := 60
  purchaseLimit := 0
  propEffectType := PropEffectType.RestDay
  effectDurationMinutes := 30
  levelRequirement := 1
  available := true
  luckyRewards := []

/-- The shop state of the spec example: a logged-in user with 100 coins and
the price-60 item on the shelf. -/
def exampleShopState : ShopState where
  activeUser := some sampleUser
  username := "stu"
  catalog := [exampleItem60]
  inventory := []

/-- C2 counterexample: on an existing but unavailable item requested with
quantity 0, the source's first failing check is the quantity check, not the
availability check the claimed order implies. -/
theorem C2_validation_order_counterexample :
    validatePurchase { exampleItem60 with available := false } sampleUser 0 0 =
      some PurchaseFailure.quantityNotPositive ∧
    specOrderValidatePurchase { exampleItem60 with available := false } sampleUser 0 0 =
      some PurchaseFailure.notAvailable ∧
    PurchaseFailure.quantityNotPositive ≠ PurchaseFailure.notAvailable := by
  refine ⟨rfl, rfl, by decide⟩

/-- C2 (amended): the purchase validation checks, in the source's order —
session, item exists, quantity positive, item available, level, funds,
purchase limit — with the first failing check reporting its own reason; every
failing purchase leaves the state exactly unchanged; and the spec example
(price-60 item, quantity 2, balance 100) fails with the insufficient-funds
reason, leaving balance, inventory and counters untouched. -/
theorem C2_purchase_validation :
    (∀ (item : ShopItem) (user : User) (quantity purchased : Int),
      (quantity ≤ 0 →
        validatePurchase item user quantity purchased = some .quantityNotPositive) ∧
      (0 < quantity → item.available = false →
        validatePurchase item user quantity purchased = some .notAvailable) ∧
      (0 < quantity → item.available = true → user.level < item.levelRequirement →
        validatePurchase item user quantity purchased = some .levelTooLow) ∧
      (0 < quantity → item.available = true → item.levelRequirement ≤ user.level →
        user.coins < item.priceCoins * quantity →
        validatePurchase item user quantity purchased = some .insufficientFunds) ∧
      (0 < quantity → item.available = true → item.levelRequirement ≤ user.level →
        item.priceCoins * quantity ≤ user.coins →
        0 < item.purchaseLimit → item.purchaseLimit < purchased + quantity →
        validatePurchase item user quantity purchased = some .purchaseLimitReached) ∧
      (0 < quantity → item.available = true → item.levelRequirement ≤ user.level →
        item.priceCoins * quantity ≤ user.coins →
        (0 < item.purchaseLimit → purchased + quantity ≤ item.purchaseLimit) →
        validatePurchase item user quantity purchased = none)) ∧
    (∀ (st : ShopState) (itemId quantity : Int) (reason : PurchaseFailure),
      (purchaseItem st itemId quantity).1 = .failed reason →
      (purchaseItem st itemId quantity).2 = st) ∧
    purchaseItem exampleShopState 7 2 =
      (.failed .insufficientFunds, exampleShopState) := by
  refine ⟨?_, ?_, ?_⟩
  · intro item user quantity purchased
    refine ⟨?_, ?_, ?_, ?_, ?_, ?_⟩
    · intro h
      rw [validatePurchase, if_pos h]
    · intro hq ha
      rw [validatePurchase, if_neg (by omega), if_pos ha]
    · intro hq ha hl
      rw [validatePurchase, if_neg (by omega),
        if_neg (by rw [ha]; exact Bool.true_eq_false ▸ (by simp)), if_pos hl]
    · intro hq ha hl hf
      rw [validatePurchase, if_neg (by omega),
        if_neg (by simp [ha]), if_neg (by omega), if_pos hf]
    · intro hq ha hl hf hlim hover
      rw [validatePurchase, if_neg (by omega),
        if_neg (by simp [ha]), if_neg (by omega), if_neg (by omega),
        if_pos (And.intro hlim hover)]
    · intro hq ha hl hf hlim
      rw [validatePurchase, if_neg (by omega),
        if_neg (by simp [ha]), if_neg (by omega), if_neg (by omega),
        if_neg (by rintro ⟨h1, h2⟩; have := hlim h1; omega)]
  · intro st itemId quantity reason
    unfold purchaseItem
    cases hu : st.activeUser with
    | none => simp
    | some user =>
      cases hfind : st.catalog.find? (fun i => i.id == itemId) with
      | none => simp [hfind]
      | some found =>
        cases hval : validatePurchase (applyPricingStrategy found) user quantity
            (countInventoryByUserAndItem st.inventory st.username
              (applyPricingStrategy found).id) with
        | some r => simp [hfind, hval]
        | none =>
          cases hspend :
              spendCoins user ((applyPricingStrategy found).priceCoins * quantity) with
          | error e => simp [hfind, hval, hspend]
          | ok user2 => simp [hfind, hval, hspend]
  · have hpriced : applyPricingStrategy exampleItem60 = exampleItem60 := by
      unfold applyPricingStrategy exampleItem60 kThreeStarRewardBaseline
      norm_num [cppTrunc]
      rw [if_neg (show ¬ (PropEffectType.RestDay = PropEffectType.DoubleExpCard) from
        by decide)]
      norm_num
    unfold purchaseItem exampleShopState
    simp only [List.find?]
    rw [show ((exampleItem60.id == (7 : Int))) = true from by decide]
    simp only [hpriced]
    rw [show validatePurchase exampleItem60 sampleUser 2
        (countInventoryByUserAndItem [] "stu" exampleItem60.id) =
        some PurchaseFailure.insufficientFunds from by decide]

/-- Witness instantiating `C2_purchase_validation` at concrete inputs. -/
theorem C2_purchase_validation_witness :
    validatePurchase exampleItem60 sampleUser 0 0 =
      some PurchaseFailure.quantityNotPositive ∧
    (purchaseItem exampleShopState 99 1).2 = exampleShopState :=
  ⟨(C2_purchase_validation.1 exampleItem60 sampleUser 0 0).1 (by decide),
   C2_purchase_validation.2.1 exampleShopState 99 1 PurchaseFailure.itemMissing (by decide)⟩

/-! ## Lucky-bag resolution (`ShopManager::rollLuckyBag`) -/

/-- A default-constructed `LuckyBagReward` (`outcome.reward` before the
selection loop): Coins, amount 0, probability `0.0`. -/
def defaultLuckyReward : LuckyBagReward :=
  ⟨LuckyRewardType.Coins, 0, 0, -1, ""⟩

/-- The reward fabricated for an empty reward table: baseline coins with
probability 1. -/
def kEmptyBagReward : LuckyBagReward :=
  ⟨LuckyRewardType.Coins, kThreeStarRewardBaseline, 1, -1, ""⟩

/-- The probability mass of a reward table. -/
def probTotal (rewards : List LuckyBagReward) : ℚ :=
  rewards.foldl (fun acc r => acc + r.probability) 0

/-- The cumulative-distribution loop of `rollLuckyBag`: the first reward whose
running probability sum reaches the target. -/
def pickReward : List LuckyBagReward → ℚ → ℚ → Option LuckyBagReward
  | [], _, _ => none
  | r :: rest, target, cursor =>
    let c := cursor + r.probability
    if target ≤ c then some r else pickReward rest target c

/-- `ShopManager::rollLuckyBag` with the uniform sample
(`QRandomGenerator::generateDouble()`, a value in `[0,1)`) made an explicit
argument: an empty table yields the fabricated baseline reward; otherwise the
sample is scaled by a positive probability mass, the loop picks the first
reward reaching it, and whenever the picked reward has non-positive
probability (also when nothing was picked, the default having probability 0)
the last reward of the table is substituted. -/
def rollLuckyBag (rewards : List LuckyBagReward) (randomValue : ℚ) :
    LuckyBagReward :=
  if rewards.isEmpty then kEmptyBagReward
  else
    let totalProbability := probTotal rewards
    let target :=
      if 0 < totalProbability then randomValue * totalProbability else randomValue
    let selected := (pickReward rewards target 0).getD defaultLuckyReward
    if selected.probability ≤ 0 then rewards.getLastD defaultLuckyReward
    else selected

/-- The draw exactly as the claim words it: first reward whose cumulative
probability reaches the sample; fall back to the last reward only when the
probability mass is non-positive or no reward is selected. -/
def specClaimDraw (rewards : List LuckyBagReward) (randomValue : ℚ) :
    LuckyBagReward :=
  if rewards.isEmpty then kEmptyBagReward
  else
    let totalProbability := probTotal rewards
    let target :=
      if 0 < totalProbability then randomValue * totalProbability else randomValue
    if totalProbability ≤ 0 then rewards.getLastD defaultLuckyReward
    else (pickReward rewards target 0).getD (rewards.getLastD defaultLuckyReward)

lemma pickReward_mem :
    ∀ (l : List LuckyBagReward) (target cursor : ℚ) (x : LuckyBagReward),
      pickReward l target cursor = some x → x ∈ l := by
  intro l
  induction l with
  | nil => intro target cursor x h; exact Option.noConfusion h
  | cons a t ih =>
    intro target cursor x h
    rw [pickReward] at h
    by_cases hc : target ≤ cursor + a.probability
    · rw [if_pos hc] at h
      exact (Option.some_inj.1 h) ▸ List.mem_cons_self a t
    · rw [if_neg hc] at h
      exact List.mem_cons_of_mem a (ih target (cursor + a.probability) x h)

lemma getLastD_mem (l : List LuckyBagReward) (d : LuckyBagReward) (h : l ≠ []) :
    l.getLastD d ∈ l := by
  induction l generalizing d with
  | nil => exact absurd rfl h
  | cons a t ih =>
    rw [List.getLastD_cons]
    cases t with
    | nil => simp [List.getLastD]
    | cons b t2 => exact List.mem_cons_of_mem a (ih a (by simp))

lemma probFoldl_init (l : List LuckyBagReward) (init : ℚ) :
    l.foldl (fun acc r => acc + r.probability) init =
      init + l.foldl (fun acc r => acc + r.probability) 0 := by
  induction l generalizing init with
  | nil => simp
  | cons a t ih =>
    simp only [List.foldl_cons]
    rw [ih (init + a.probability), ih (0 + a.probability)]
    ring

lemma probTotal_nonneg (l : List LuckyBagReward)
    (h : ∀ x ∈ l, 0 ≤ x.probability) : 0 ≤ probTotal l := by
  induction l with
  | nil => simp [probTotal]
  | cons a t ih =>
    have ha := h a (List.mem_cons_self a t)
    have ht := ih (fun x hx => h x (List.mem_cons_of_mem a hx))
    unfold probTotal at ht ⊢
    rw [List.foldl_cons, probFoldl_init]
    linarith

lemma mem_prob_le_probTotal (l : List LuckyBagReward) (x : LuckyBagReward)
    (hx : x ∈ l) (h : ∀ y ∈ l, 0 ≤ y.probability) :
    x.probability ≤ probTotal l := by
  induction l with
  | nil => cases hx
  | cons a t ih =>
    have htotal : probTotal (a :: t) = a.probability + probTotal t := by
      unfold probTotal
      rw [List.foldl_cons, probFoldl_init]
      ring
    have htnonneg : 0 ≤ probTotal t :=
      probTotal_nonneg t (fun y hy => h y (List.mem_cons_of_mem a hy))
    rcases List.mem_cons.1 hx with rfl | hxt
    · rw [htotal]; linarith
    · have := ih hxt (fun y hy => h y (List.mem_cons_of_mem a hy))
      have ha := h a (List.mem_cons_self a t)
      rw [htotal]; linarith

/-- C6 counterexample: on the table `[probability 0, probability 1]` with
sample 0, the claimed algorithm (fallback only on non-positive mass or no
selection) returns the first reward, while the source replaces the selected
zero-probability reward by the last one — the claim's description of the
fallback is wrong on this input. -/
theorem C6_fallback_counterexample :
    rollLuckyBag
        [⟨LuckyRewardType.Coins, 5, 0, -1, ""⟩, ⟨LuckyRewardType.Coins, 7, 1, -1, ""⟩] 0 =
      ⟨LuckyRewardType.Coins, 7, 1, -1, ""⟩ ∧
    specClaimDraw
        [⟨LuckyRewardType.Coins, 5, 0, -1, ""⟩, ⟨LuckyRewardType.Coins, 7, 1, -1, ""⟩] 0 =
      ⟨LuckyRewardType.Coins, 5, 0, -1, ""⟩ ∧
    (⟨LuckyRewardType.Coins, 7, 1, -1, ""⟩ : LuckyBagReward) ≠
      ⟨LuckyRewardType.Coins, 5, 0, -1, ""⟩ := by
  refine ⟨?_, ?_, by simp⟩
  · norm_num [rollLuckyBag, probTotal, pickReward, defaultLuckyReward, List.getLastD]
  · norm_num [specClaimDraw, probTotal, pickReward, List.getLastD]

/-- C6 (amended): for every non-empty reward table and every sample the draw
returns exactly one reward that is an element of the table — never an empty
result; when all probabilities are nonnegative and the mass is non-positive
the draw returns the last reward; and whenever the loop selects a reward of
positive probability that reward is returned unchanged.  (The source's
fallback fires whenever the selected reward has non-positive probability,
also when the mass is positive.) -/
theorem C6_lucky_bag_always_resolves :
    (∀ (rewards : List LuckyBagReward) (randomValue : ℚ),
      rewards ≠ [] → rollLuckyBag rewards randomValue ∈ rewards) ∧
    (∀ (rewards : List LuckyBagReward) (randomValue : ℚ),
      rewards ≠ [] → (∀ x ∈ rewards, 0 ≤ x.probability) →
      probTotal rewards ≤ 0 →
      rollLuckyBag rewards randomValue = rewards.getLastD defaultLuckyReward) ∧
    (∀ (rewards : List LuckyBagReward) (randomValue : ℚ) (x : LuckyBagReward),
      rewards ≠ [] →
      pickReward rewards
        (if 0 < probTotal rewards then randomValue * probTotal rewards
          else randomValue) 0 = some x →
      0 < x.probability →
      rollLuckyBag rewards randomValue = x) := by
  refine ⟨?_, ?_, ?_⟩
  · intro rewards randomValue hne
    unfold rollLuckyBag
    rw [if_neg (by simpa [List.isEmpty_eq_false] using hne)]
    simp only
    cases hpick : pickReward rewards
        (if 0 < probTotal rewards then randomValue * probTotal rewards
          else randomValue) 0 with
    | none =>
      simp only [Option.getD_none]
      rw [if_pos (by simp [defaultLuckyReward])]
      exact getLastD_mem rewards defaultLuckyReward hne
    | some x =>
      simp only [Option.getD_some]
      by_cases hsel : x.probability ≤ 0
      · rw [if_pos hsel]
        exact getLastD_mem rewards defaultLuckyReward hne
      · rw [if_neg hsel]
        exact pickReward_mem rewards _ 0 x hpick
  · intro rewards randomValue hne hnonneg htotal
    unfold rollLuckyBag
    rw [if_neg (by simpa [List.isEmpty_eq_false] using hne)]
    simp only
    cases hpick : pickReward rewards
        (if 0 < probTotal rewards then randomValue * probTotal rewards
          else randomValue) 0 with
    | none =>
      simp only [Option.getD_none]
      rw [if_pos (by simp [defaultLuckyReward])]
    | some x =>
      have hxmem := pickReward_mem rewards _ 0 x hpick
      have hxle := mem_prob_le_probTotal rewards x hxmem hnonneg
      simp only [Option.getD_some]
      rw [if_pos (by linarith)]
  · intro rewards randomValue x hne hpick hxpos
    unfold rollLuckyBag
    rw [if_neg (by simpa [List.isEmpty_eq_false] using hne)]
    simp only
    rw [hpick]
    simp only [Option.getD_some]
    rw [if_neg (by linarith)]

/-- Witness instantiating `C6_lucky_bag_always_resolves` at a concrete
table. -/
theorem C6_lucky_bag_always_resolves_witness :
    rollLuckyBag
        [⟨LuckyRewardType.Coins, 5, 0, -1, ""⟩, ⟨LuckyRewardType.Coins, 7, 1, -1, ""⟩] 0 ∈
      [⟨LuckyRewardType.Coins, 5, 0, -1, ""⟩, ⟨LuckyRewardType.Coins, 7, 1, -1, ""⟩] :=
  C6_lucky_bag_always_resolves.1
    [⟨LuckyRewardType.Coins, 5, 0, -1, ""⟩, ⟨LuckyRewardType.Coins, 7, 1, -1, ""⟩] 0
    (by simp)

end CyberLanda
